import Mathlib

/-!
# OTP login / registration service: embedding of `src/controllers/userController.js`

The Express handlers of `userController.js` are embedded as pure functions
`Store → Request → … → Store × Outcome`.  The Mongo collection is a list of
`User` documents (`src/models/userModel.js`), `User.findOne` is the first match
in the list, `user.save()` rewrites the document with the same `_id`.

Everything a handler reads from outside (the clock `Date.now()`, the draw of
`Math.random()`, the bcrypt salt, the result of the SMS / mail transport) is an
explicit argument.  Library functions that are not part of the repository
(`bcrypt.hash`, `bcrypt.compare`, `jwt.sign`, validator.js `isMobilePhone`,
`isEmail` and `isLength`) are fields of `Env`.

Times are milliseconds since the epoch as `Nat` (the value of `Date.now()` and
of a stored `Date`); they are far below `2^53`, so the JavaScript additions and
comparisons on them are exact.

The draw of `Math.random()` is a rational number; the product and the sum of
`100000 + Math.random() * 900000` are rounded to binary64 (`roundDouble`), as
the JavaScript operators on numbers do.
-/

namespace OtpAuth

/-! ## Values of `req.body` -/

/-- A parsed JSON value found in a field of `req.body`.  `undefined` is a missing
field, `obj` a plain object (without a key `_id` or `toString`).  A number is
given by `text`, its string form `String(value)`: the handlers and the
libraries use a number only through this string, or through its type. -/
inductive JsVal where
  | undefined
  | null
  | bool (b : Bool)
  | num (text : String)
  | str (s : String)
  | obj
  deriving DecidableEq, Repr

/-- The `toString` helper of express-validator, applied to a field before a
validator runs: `undefined` and `null` become the empty string. -/
def JsVal.validatorString : JsVal → String
  | .undefined => ""
  | .null => ""
  | .bool true => "true"
  | .bool false => "false"
  | .num text => text
  | .str s => s
  | .obj => "[object Object]"

/-- Mongoose cast of a value assigned to a path of schema type `String`:
`none` when the cast fails (CastError, reported by `save`), otherwise the
stored value (`null` / `undefined` are kept as "no string"). -/
def JsVal.castString : JsVal → Option (Option String)
  | .undefined => some none
  | .null => some none
  | .bool true => some (some "true")
  | .bool false => some (some "false")
  | .num text => some (some text)
  | .str s => some (some s)
  | .obj => none

/-! ## The user document (`src/models/userModel.js`) -/

/-- A document of the `User` collection.  `otp`, `otpExpiration`,
`resetPasswordToken`, `resetPasswordExpires` default to `null` (`none`), `pin`
has no default (`none` is "absent"). -/
structure User where
  _id : Nat
  name : String
  mobile : String
  email : String
  password : String
  pin : Option String
  isVerified : Bool
  referralCode : String
  otp : Option String
  otpExpiration : Option Nat
  resetPasswordToken : Option String
  resetPasswordExpires : Option Nat
  deriving DecidableEq, Repr

/-- The collection: documents in insertion order. -/
abbrev Store := List User

/-- The query `User.findOne(filter)`: the first document matching the filter. -/
def findOne (filter : User → Bool) (db : Store) : Option User :=
  db.find? filter

/-- The query `User.findById(id)`. -/
def findById (id : Nat) (db : Store) : Option User :=
  findOne (fun u => u._id == id) db

/-- The call `user.save()` on a document loaded from the collection: the document with
the same `_id` is rewritten. -/
def save (user : User) (db : Store) : Store :=
  db.map (fun x => if x._id = user._id then user else x)

/-- The `_id` given to a newly constructed document: one not used in the
collection. -/
def freshId (db : Store) : Nat :=
  (db.map (fun u => u._id)).foldr max 0 + 1

/-! ### Schema validators -/

/-- The character class `\d` (also `[0-9]`). -/
def isDigitChar (c : Char) : Bool :=
  decide ('0' ≤ c) && decide (c ≤ '9')

/-- The character class `[\w-]` (and `[\w-\.]` without the dot). -/
def isWordDash (c : Char) : Bool :=
  c.isAlphanum || c == '_' || c == '-'

/-- The validator of `pin`: `/^[0-9]{4}$/`. -/
def pinValid (v : String) : Bool :=
  v.length == 4 && v.data.all isDigitChar

/-- The part `\d{10}$` of the mobile validator. -/
def tenDigits (cs : List Char) : Bool :=
  cs.length == 10 && cs.all isDigitChar

/-- The part `\d{1,3}[- ]?` followed by `\d{10}$`: `k` digits of the country
code, an optional separator, ten digits. -/
def countryThenTen (cs : List Char) (k : Nat) : Bool :=
  (cs.take k).all isDigitChar && k ≤ cs.length &&
    (tenDigits (cs.drop k) ||
      match cs.drop k with
      | c :: rest => (c == '-' || c == ' ') && tenDigits rest
      | [] => false)

/-- The validator of `mobile`: `/^(\+\d{1,3}[- ]?)?\d{10}$/`. -/
def mobileValid (v : String) : Bool :=
  tenDigits v.data ||
    match v.data with
    | '+' :: cs => countryThenTen cs 1 || countryThenTen cs 2 || countryThenTen cs 3
    | _ => false

/-- The part `([\w-]+\.)+[\w-]{2,4}$` of the email validator, on the labels of
the domain split at the dots: at least two labels, none empty, all of
`[\w-]`, the last one of length 2 to 4. -/
def domainValid (labels : List (List Char)) : Bool :=
  decide (2 ≤ labels.length) &&
    labels.all (fun l => !l.isEmpty && l.all isWordDash) &&
    match labels.getLast? with
    | some tld => decide (2 ≤ tld.length) && decide (tld.length ≤ 4)
    | none => false

/-- The validator of `email`: `/^[\w-\.]+@([\w-]+\.)+[\w-]{2,4}$/`. -/
def emailValid (v : String) : Bool :=
  match v.data.splitOn '@' with
  | [loc, dom] =>
      !loc.isEmpty && loc.all (fun c => isWordDash c || c == '.') &&
        domainValid (dom.splitOn '.')
  | _ => false

/-- Validation run by `save()` on a new document: `name`, `mobile`, `email`,
`password` are required (non-empty strings), `mobile`, `email` and a defined
`pin` pass their validators. -/
def schemaValid (u : User) : Bool :=
  !u.name.isEmpty && !u.mobile.isEmpty && mobileValid u.mobile &&
    !u.email.isEmpty && emailValid u.email && !u.password.isEmpty &&
    match u.pin with
    | some p => pinValid p
    | none => true

/-! ## Requests and responses -/

/-- The fields of `req.body` read by the handlers.  The lookup keys `mobile`,
`email` and the `name` are strings (an absent one is the empty string); the
fields compared or stored without a check are arbitrary JSON values. -/
structure Body where
  name : String
  mobile : String
  email : String
  password : JsVal
  referralCode : Option String
  otp : JsVal
  pin : JsVal
  deriving DecidableEq, Repr

/-- A request: the body and `req.user.id` (`none` when `req.user` is not
set). -/
structure Request where
  body : Body
  user : Option Nat
  deriving DecidableEq, Repr

/-- The JSON payload of a response. -/
inductive Payload where
  | msg (m : String)
  | message (m : String)
  | error (e : String)
  | errors (es : List String)
  | text (t : String)
  deriving DecidableEq, Repr

/-- A response: status code (200 for a bare `res.json`), payload, and the `jwt`
cookie when one is set. -/
structure Response where
  status : Nat
  payload : Payload
  cookie : Option String
  deriving DecidableEq, Repr

/-- What a handler does with the request: it sends a response, or its promise
rejects (an exception inside the `async` function) and nothing is sent. -/
inductive Outcome where
  | sent (r : Response)
  | threw
  deriving DecidableEq, Repr

/-- Result of `res.status(s).json({ msg })`. -/
def reply (status : Nat) (m : String) : Outcome :=
  .sent ⟨status, .msg m, none⟩

/-- Library functions used by the controller and the router. -/
structure Env where
  /-- Result of `bcrypt.hash(password, salt)`. -/
  hash : String → String → String
  /-- Result of `bcrypt.compare(password, hash)`. -/
  compare : String → String → Bool
  /-- Result of `jwt.sign` on the user id with the configured secret. -/
  sign : Nat → String
  /-- validator.js `isMobilePhone`. -/
  isMobilePhone : String → Bool
  /-- validator.js `isEmail`. -/
  isEmail : String → Bool
  /-- validator.js `isLength(str, { min })`. -/
  isLength : String → Nat → Bool

/-! ## JavaScript operators used by the handlers -/

/-- The test `user.otp !== req.body.otp`: strict inequality between the stored
value (a string or `null`) and the claimed JSON value. -/
def strictNe (stored : Option String) (claimed : JsVal) : Bool :=
  match stored, claimed with
  | none, .null => false
  | some s, .str t => s != t
  | _, _ => true

/-- Number value of `user.otpExpiration` in a `<` comparison: the time value of
the date, `0` for `null`. -/
def dateNumber (d : Option Nat) : Nat :=
  match d with
  | some t => t
  | none => 0

/-- Truthiness of `user.pin`: a non-empty string. -/
def truthy (v : Option String) : Bool :=
  match v with
  | some s => !s.isEmpty
  | none => false

/-- Rounding of a rational to the nearest integer, a tie going to the even
one. -/
def roundHalfEven (y : ℚ) : ℤ :=
  if y - ⌊y⌋ < 1 / 2 then ⌊y⌋
  else if 1 / 2 < y - ⌊y⌋ then ⌊y⌋ + 1
  else if ⌊y⌋ % 2 = 0 then ⌊y⌋ else ⌊y⌋ + 1

/-- The binary64 exponent of a value: `floor (log2 |x|)`, and `-1022` for the
subnormal range. -/
def binadeExp (x : ℚ) : ℤ :=
  max (Int.log 2 |x|) (-1022)

/-- The distance between consecutive binary64 numbers around `x` (53 bits of
significand). -/
def ulp (x : ℚ) : ℚ :=
  (2 : ℚ) ^ (binadeExp x - 52)

/-- The binary64 number nearest to `x`, a tie going to the even significand:
the result of a JavaScript arithmetic operator whose exact result is `x`.
Overflow is not modelled (the values here stay below `2^20`). -/
def roundDouble (x : ℚ) : ℚ :=
  roundHalfEven (x / ulp x) * ulp x

/-- The rational `x` is a binary64 number. -/
def isDouble (x : ℚ) : Prop :=
  roundDouble x = x

instance (x : ℚ) : Decidable (isDouble x) := by
  unfold isDouble
  infer_instance

/-- The value `Math.floor(100000 + Math.random() * 900000)` for the draw `r`:
the product is rounded to binary64, then the sum, then the floor is taken. -/
def otpNumber (r : ℚ) : Int :=
  Int.floor (roundDouble (100000 + roundDouble (r * 900000)))

/-- The code `Math.floor(100000 + Math.random() * 900000).toString()`. -/
def generateOtp (r : ℚ) : String :=
  toString (otpNumber r)

/-- The expiry `Date.now() + 10 * 60 * 1000`. -/
def expirationTime (now : Nat) : Nat :=
  now + 10 * 60 * 1000

/-! ## The router's validation chain for `/register` (`src/routers/userRouter.js`) -/

/-- Outcome of `validationResult(req)` for the `/register` chain: the messages
of the failed checks, in the order of the chain. -/
def validationResult (env : Env) (req : Request) : List String :=
  (if req.body.name.isEmpty then ["Name is required"] else []) ++
  (if req.body.mobile.isEmpty then ["Mobile number is required"] else []) ++
  (if env.isMobilePhone req.body.mobile then [] else ["Invalid mobile number"]) ++
  (if env.isEmail req.body.email then [] else ["Invalid email"]) ++
  (if env.isLength req.body.password.validatorString 6 then []
    else ["Password must be at least 6 characters long"])

/-! ## The handlers (`src/controllers/userController.js`) -/

/-- The filter of `findOne({ mobile })`. -/
def byMobile (m : String) : User → Bool :=
  fun u => u.mobile == m

/-- The filter of `findOne({ email })`. -/
def byEmail (e : String) : User → Bool :=
  fun u => u.email == e

/-- Handler `exports.registerUser`.  `salt` is the result of `bcrypt.genSalt`. -/
def registerUser (env : Env) (db : Store) (req : Request) (salt : String) :
    Store × Outcome :=
  let errors := validationResult env req
  if !errors.isEmpty then
    (db, .sent ⟨422, .errors errors, none⟩)
  else
    match findOne (fun u => u.mobile == req.body.mobile || u.email == req.body.email) db with
    | some _ => (db, reply 400 "User already exists")
    | none =>
      match req.body.password.castString with
      | some (some password) =>
        let user : User :=
          { _id := freshId db
            name := req.body.name
            mobile := req.body.mobile
            email := req.body.email
            password := env.hash password salt
            pin := none
            isVerified := false
            referralCode := req.body.referralCode.getD ""
            otp := none
            otpExpiration := none
            resetPasswordToken := none
            resetPasswordExpires := none }
        if schemaValid user then
          (db ++ [user], reply 201 "User registered successfully")
        else
          (db, .threw)
      | _ => (db, .threw)

/-- Handler `exports.sendOtp`.  `r` is the draw of `Math.random()`, `now` the
value of `Date.now()`, `sms` the result of the Twilio call (`none` on success,
the error message otherwise). -/
def sendOtp (db : Store) (req : Request) (r : ℚ) (now : Nat) (sms : Option String) :
    Store × Outcome :=
  let otp := generateOtp r
  let expirationTime := expirationTime now
  match findOne (byMobile req.body.mobile) db with
  | none => (db, reply 400 "User not found")
  | some user =>
    let user := { user with otp := some otp, otpExpiration := some expirationTime }
    (save user db,
      match sms with
      | none => .sent ⟨200, .msg "OTP sent successfully", none⟩
      | some err => .sent ⟨500, .error err, none⟩)

/-- Handler `exports.verifyOtp`. -/
def verifyOtp (env : Env) (db : Store) (req : Request) (now : Nat) : Store × Outcome :=
  match findOne (byMobile req.body.mobile) db with
  | none => (db, reply 400 "User not found")
  | some user =>
    if strictNe user.otp req.body.otp then
      (db, reply 400 "Invalid OTP")
    else if dateNumber user.otpExpiration < now then
      (db, reply 400 "OTP expired")
    else
      let user := { user with isVerified := true, otp := none, otpExpiration := none }
      (save user db,
        .sent ⟨200, .msg "OTP verified successfully", some (env.sign user._id)⟩)

/-- Handler `exports.setPin`.  Reading `req.user.id` throws when `req.user` is
not set; `save` rejects when the assigned pin fails the cast or the schema
validator. -/
def setPin (db : Store) (req : Request) : Store × Outcome :=
  match req.user with
  | none => (db, .threw)
  | some id =>
    match findById id db with
    | none => (db, reply 400 "User not found")
    | some user =>
      if truthy user.pin then
        (db, reply 400 "PIN already set")
      else
        match req.body.pin with
        | .undefined =>
          (save { user with pin := none } db, reply 200 "PIN set successfully")
        | v =>
          match v.castString with
          | some (some p) =>
            if pinValid p then
              (save { user with pin := some p } db, reply 200 "PIN set successfully")
            else
              (db, .threw)
          | _ => (db, .threw)

/-- Handler `exports.forgotPassword`.  `mail` is the error passed to the
`sendMail` callback (`none` on success). -/
def forgotPassword (db : Store) (req : Request) (r : ℚ) (now : Nat) (mail : Option String) :
    Store × Outcome :=
  let otp := generateOtp r
  let expirationTime := expirationTime now
  match findOne (byEmail req.body.email) db with
  | none => (db, reply 400 "User not found")
  | some user =>
    let user := { user with otp := some otp, otpExpiration := some expirationTime }
    (save user db,
      match mail with
      | some err => .sent ⟨500, .error err, none⟩
      | none => .sent ⟨200, .msg "OTP sent successfully", none⟩)

/-- Handler `exports.resetPassword`.  `bcrypt.hash` rejects a password that is
not a string. -/
def resetPassword (env : Env) (db : Store) (req : Request) (now : Nat) (salt : String) :
    Store × Outcome :=
  match findOne (byEmail req.body.email) db with
  | none => (db, reply 400 "User not found")
  | some user =>
    if strictNe user.otp req.body.otp then
      (db, reply 400 "Invalid OTP")
    else if dateNumber user.otpExpiration < now then
      (db, reply 400 "OTP expired")
    else
      match req.body.password with
      | .str password =>
        let user :=
          { user with password := env.hash password salt, otp := none, otpExpiration := none }
        (save user db, reply 200 "Password reset successfully")
      | _ => (db, .threw)

/-- Handler `exports.login`. -/
def login (env : Env) (db : Store) (req : Request) : Store × Outcome :=
  match findOne (byMobile req.body.mobile) db with
  | none => (db, .sent ⟨401, .message "Authentication failed. User not found.", none⟩)
  | some user =>
    match req.body.password with
    | .str password =>
      if !env.compare password user.password then
        (db, .sent ⟨401, .message "Authentication failed. Wrong password.", none⟩)
      else
        (db, .sent ⟨200, .text "Logged in", none⟩)
    | _ => (db, .threw)

/-! ## Vocabulary used to state the properties -/

/-- The OTP error classes of the specification. -/
inductive OtpError where
  | NotFound
  | Mismatch
  | Expired
  deriving DecidableEq, Repr

/-- The error class of an outcome, read off the message the handler sends:
"User not found", "Invalid OTP", "OTP expired" (all with status 400). -/
def otpError (o : Outcome) : Option OtpError :=
  if o = reply 400 "User not found" then some .NotFound
  else if o = reply 400 "Invalid OTP" then some .Mismatch
  else if o = reply 400 "OTP expired" then some .Expired
  else none

/-- The two issuing flows: `sendOtp` (code sent by SMS) and `forgotPassword`
(code sent by mail). -/
inductive Flow where
  | sms
  | mail
  deriving DecidableEq, Repr

/-- One issuance through the given flow; `err` is the transport result. -/
def issue (flow : Flow) (db : Store) (req : Request) (r : ℚ) (now : Nat)
    (err : Option String) : Store × Outcome :=
  match flow with
  | .sms => sendOtp db req r now err
  | .mail => forgotPassword db req r now err

/-! ### Sample data -/

/-- A sample environment. -/
def sampleEnv : Env where
  hash := fun password salt => salt ++ "$" ++ password
  compare := fun password h => h.endsWith ("$" ++ password)
  sign := fun id => "jwt." ++ toString id
  isMobilePhone := mobileValid
  isEmail := emailValid
  isLength := fun s min => decide (min ≤ s.length)

/-- A registered user without challenge and without pin. -/
def alice : User where
  _id := 1
  name := "Alice"
  mobile := "9991112222"
  email := "alice@example.com"
  password := "salt$secret1"
  pin := none
  isVerified := false
  referralCode := ""
  otp := none
  otpExpiration := none
  resetPasswordToken := none
  resetPasswordExpires := none

/-- A user with the outstanding challenge ("123456", 1000) and the pin "1234". -/
def bob : User where
  _id := 2
  name := "Bob"
  mobile := "9993334444"
  email := "bob@example.com"
  password := "salt$secret2"
  pin := some "1234"
  isVerified := false
  referralCode := ""
  otp := some "123456"
  otpExpiration := some 1000
  resetPasswordToken := none
  resetPasswordExpires := none

/-- A sample collection. -/
def sampleDb : Store := [alice, bob]

/-- A request body with the given keys, claimed code and password. -/
def mkReq (mobile email : String) (otp password : JsVal) : Request where
  body :=
    { name := ""
      mobile := mobile
      email := email
      password := password
      referralCode := none
      otp := otp
      pin := .undefined }
  user := none

/-! ## Runs of the service -/

/-- One call of a handler, with everything the handler reads from outside. -/
inductive Call where
  | registerUser (req : Request) (salt : String)
  | sendOtp (req : Request) (r : ℚ) (now : Nat) (sms : Option String)
  | verifyOtp (req : Request) (now : Nat)
  | setPin (req : Request)
  | forgotPassword (req : Request) (r : ℚ) (now : Nat) (mail : Option String)
  | resetPassword (req : Request) (now : Nat) (salt : String)
  | login (req : Request)

/-- The effect of one call on the collection, and its outcome. -/
def step (env : Env) (db : Store) : Call → Store × Outcome
  | .registerUser req salt => registerUser env db req salt
  | .sendOtp req r now sms => sendOtp db req r now sms
  | .verifyOtp req now => verifyOtp env db req now
  | .setPin req => setPin db req
  | .forgotPassword req r now mail => forgotPassword db req r now mail
  | .resetPassword req now salt => resetPassword env db req now salt
  | .login req => login env db req

/-- The collection after a sequence of calls. -/
def run (env : Env) (db : Store) : List Call → Store
  | [] => db
  | c :: cs => run env (step env db c).1 cs

/-- The `_id`s of the collection are pairwise distinct (`_id` is the primary
key). -/
def uniqueIds (db : Store) : Prop :=
  (db.map (fun u => u._id)).Nodup

instance (db : Store) : Decidable (uniqueIds db) := by
  unfold uniqueIds
  infer_instance

/-- A request to `/set-pin` on behalf of the user `id`. -/
def pinReq (id : Nat) (pin : JsVal) : Request where
  body :=
    { name := ""
      mobile := ""
      email := ""
      password := .undefined
      referralCode := none
      otp := .undefined
      pin := pin }
  user := some id

/-- A request to `/register`. -/
def registerReq (name mobile email : String) (password : JsVal) : Request where
  body :=
    { name := name
      mobile := mobile
      email := email
      password := password
      referralCode := none
      otp := .undefined
      pin := .undefined }
  user := none

/-- Every stored pin passes the schema validator of `pin`. -/
def pinsValid (db : Store) : Prop :=
  ∀ u ∈ db, ∀ p, u.pin = some p → pinValid p = true

/-! ## Lemmas on the collection -/

theorem findOne_holds {p : User → Bool} {db : Store} {u : User}
    (h : findOne p db = some u) : p u = true := by
  unfold findOne at h
  exact List.find?_some h

theorem findOne_mem {p : User → Bool} {db : Store} {u : User}
    (h : findOne p db = some u) : u ∈ db := by
  unfold findOne at h
  exact List.mem_of_find?_eq_some h

/-- After `save`, a lookup that returned the document before returns the saved
document, provided the saved document still matches the filter. -/
theorem findOne_save {p : User → Bool} {db : Store} {u v : User}
    (h : findOne p db = some u) (hid : v._id = u._id) (hp : p v = true) :
    findOne p (save v db) = some v := by
  unfold findOne save at *
  induction db with
  | nil => simp at h
  | cons x xs ih =>
    by_cases hx : x._id = v._id
    · simp [List.find?, hx, hp]
    · by_cases hpx : p x = true
      · simp [List.find?, hpx] at h
        exact absurd (by rw [h, hid]) hx
      · simp only [Bool.not_eq_true] at hpx
        simp only [List.find?, hpx] at h
        simp [List.find?, hx, hpx, ih h]

theorem strictNe_same (c : String) : strictNe (some c) (.str c) = false := by
  simp [strictNe]

theorem strictNe_other (c : String) (v : JsVal) (h : v ≠ .str c) :
    strictNe (some c) v = true := by
  cases v <;> simp [strictNe]
  rename_i s
  intro hs
  exact h (by rw [hs])

theorem strictNe_null_string (c : String) : strictNe none (.str c) = true := by
  simp [strictNe]

/-! ## Lemmas on the handlers -/

theorem roundHalfEven_le (y : ℚ) : (roundHalfEven y : ℚ) ≤ y + 1 / 2 := by
  unfold roundHalfEven
  have h1 := Int.floor_le y
  have h2 := Int.lt_floor_add_one y
  split_ifs <;> push_cast <;> linarith

theorem le_roundHalfEven (y : ℚ) : y - 1 / 2 ≤ (roundHalfEven y : ℚ) := by
  unfold roundHalfEven
  have h1 := Int.floor_le y
  have h2 := Int.lt_floor_add_one y
  split_ifs <;> push_cast <;> linarith

theorem floor_le_roundHalfEven (y : ℚ) : ⌊y⌋ ≤ roundHalfEven y := by
  unfold roundHalfEven
  split_ifs <;> omega

theorem roundHalfEven_intCast (k : ℤ) : roundHalfEven (k : ℚ) = k := by
  unfold roundHalfEven
  simp

theorem ulp_pos (x : ℚ) : 0 < ulp x := by
  unfold ulp
  positivity

/-- The binade exponent of a value of `[2^e, 2^(e+1))`. -/
theorem binadeExp_eq (x : ℚ) (e : ℤ) (he : -1022 ≤ e) (h1 : (2 : ℚ) ^ e ≤ x)
    (h2 : x < (2 : ℚ) ^ (e + 1)) : binadeExp x = e := by
  have hx : 0 < x := lt_of_lt_of_le (by positivity) h1
  have habs : |x| = x := abs_of_pos hx
  have hlog : Int.log 2 x = e := by
    apply le_antisymm
    · have := (Int.lt_zpow_iff_log_lt (b := 2) (by norm_num) hx (x := e + 1)).mp
        (by exact_mod_cast h2)
      omega
    · exact (Int.zpow_le_iff_le_log (b := 2) (by norm_num) hx).mp (by exact_mod_cast h1)
  unfold binadeExp
  rw [habs, hlog]
  exact max_eq_left he

/-- The binade exponent of a value below `2^(e+1)`. -/
theorem binadeExp_le (x : ℚ) (e : ℤ) (he : 0 ≤ e) (h0 : 0 ≤ x)
    (h2 : x < (2 : ℚ) ^ (e + 1)) : binadeExp x ≤ e := by
  unfold binadeExp
  rw [abs_of_nonneg h0]
  apply max_le _ (by omega)
  rcases eq_or_lt_of_le h0 with h | h
  · rw [← h, Int.log_of_right_le_zero 2 (le_refl (0 : ℚ))]
    exact he
  · have := (Int.lt_zpow_iff_log_lt (b := 2) (by norm_num) h (x := e + 1)).mp
      (by exact_mod_cast h2)
    omega

theorem roundDouble_le_add (x : ℚ) : roundDouble x ≤ x + ulp x / 2 := by
  unfold roundDouble
  have hu := ulp_pos x
  have h := roundHalfEven_le (x / ulp x)
  calc (roundHalfEven (x / ulp x) : ℚ) * ulp x ≤ (x / ulp x + 1 / 2) * ulp x :=
        mul_le_mul_of_nonneg_right h hu.le
    _ = x + ulp x / 2 := by field_simp; ring

theorem sub_le_roundDouble (x : ℚ) : x - ulp x / 2 ≤ roundDouble x := by
  unfold roundDouble
  have hu := ulp_pos x
  have h := le_roundHalfEven (x / ulp x)
  calc x - ulp x / 2 = (x / ulp x - 1 / 2) * ulp x := by field_simp; ring
    _ ≤ (roundHalfEven (x / ulp x) : ℚ) * ulp x := mul_le_mul_of_nonneg_right h hu.le

theorem ulp_le (x : ℚ) (e : ℤ) (he : 0 ≤ e) (h0 : 0 ≤ x) (h2 : x < (2 : ℚ) ^ (e + 1)) :
    ulp x ≤ (2 : ℚ) ^ (e - 52) := by
  unfold ulp
  apply zpow_le_zpow_right₀ (by norm_num)
  have := binadeExp_le x e he h0 h2
  omega

theorem roundDouble_nonneg (x : ℚ) (h0 : 0 ≤ x) : 0 ≤ roundDouble x := by
  unfold roundDouble
  have hu := ulp_pos x
  apply mul_nonneg _ hu.le
  have h1 : (0 : ℤ) ≤ ⌊x / ulp x⌋ := Int.floor_nonneg.mpr (div_nonneg h0 hu.le)
  have h2 := floor_le_roundHalfEven (x / ulp x)
  exact_mod_cast le_trans h1 h2

/-- A multiple of the unit of its binade is a double. -/
theorem roundDouble_eq_self (x : ℚ) (k : ℤ) (h : x = k * ulp x) : roundDouble x = x := by
  unfold roundDouble
  have hu := ulp_pos x
  have : x / ulp x = (k : ℚ) := by
    rw [div_eq_iff hu.ne']
    exact h
  rw [this, roundHalfEven_intCast]
  exact h.symm

/-- Rounding does not go below a multiple of the unit that lies below the value. -/
theorem le_roundDouble_of_multiple (x : ℚ) (k : ℤ) (h : (k : ℚ) * ulp x ≤ x) :
    (k : ℚ) * ulp x ≤ roundDouble x := by
  unfold roundDouble
  have hu := ulp_pos x
  apply mul_le_mul_of_nonneg_right _ hu.le
  have h1 : (k : ℚ) ≤ x / ulp x := by
    rw [le_div_iff₀ hu]
    exact h
  have h2 : k ≤ ⌊x / ulp x⌋ := Int.le_floor.mpr h1
  exact_mod_cast le_trans h2 (floor_le_roundHalfEven _)

/-- Rounding stays below a multiple of the unit when the value is more than
half a unit below the next multiple. -/
theorem roundDouble_le_of_multiple (x : ℚ) (k : ℤ) (h : x < ((k : ℚ) + 1 / 2) * ulp x) :
    roundDouble x ≤ (k : ℚ) * ulp x := by
  unfold roundDouble
  have hu := ulp_pos x
  apply mul_le_mul_of_nonneg_right _ hu.le
  have h1 : x / ulp x < (k : ℚ) + 1 / 2 := by
    rw [div_lt_iff₀ hu]
    exact h
  have h2 := roundHalfEven_le (x / ulp x)
  have h3 : (roundHalfEven (x / ulp x) : ℚ) < (k : ℚ) + 1 := by linarith
  have h4 : roundHalfEven (x / ulp x) < k + 1 := by exact_mod_cast h3
  have h5 : roundHalfEven (x / ulp x) ≤ k := by omega
  exact_mod_cast h5

theorem ulp_eq (x : ℚ) (e : ℤ) (he : -1022 ≤ e) (h1 : (2 : ℚ) ^ e ≤ x)
    (h2 : x < (2 : ℚ) ^ (e + 1)) : ulp x = (2 : ℚ) ^ (e - 52) := by
  unfold ulp
  rw [binadeExp_eq x e he h1 h2]

/-- A double below 1 is at most `1 - 2^-53`. -/
theorem isDouble_lt_one (r : ℚ) (hd : isDouble r) (h0 : 0 ≤ r) (h1 : r < 1) :
    r ≤ 1 - 1 / 2 ^ 53 := by
  rcases eq_or_lt_of_le h0 with h | hpos
  · rw [← h]; norm_num
  · by_cases hhalf : r < 1 / 2
    · have : (1 : ℚ) / 2 ≤ 1 - 1 / 2 ^ 53 := by norm_num
      linarith
    · have hu : ulp r = 1 / 2 ^ 53 := by
        rw [ulp_eq r (-1) (by norm_num) (by norm_num; linarith) (by norm_num; linarith)]
        norm_num
      unfold isDouble roundDouble at hd
      rw [hu] at hd
      generalize roundHalfEven (r / (1 / 2 ^ 53)) = k at hd
      have hk : (k : ℚ) < 2 ^ 53 := by
        have : (k : ℚ) = r * 2 ^ 53 := by
          rw [← hd]; field_simp
        rw [this]
        nlinarith
      have hk2 : k < 2 ^ 53 := by exact_mod_cast hk
      have hk3 : k ≤ 2 ^ 53 - 1 := by omega
      have hk4 : (k : ℚ) ≤ 2 ^ 53 - 1 := by exact_mod_cast hk3
      rw [← hd]
      calc (k : ℚ) * (1 / 2 ^ 53)
          ≤ (2 ^ 53 - 1) * (1 / 2 ^ 53) := mul_le_mul_of_nonneg_right hk4 (by positivity)
        _ = 1 - 1 / 2 ^ 53 := by norm_num

/-- Rounding error of a value of `[0, 2^20)`: at most `2^-34`. -/
theorem roundDouble_error (x : ℚ) (h0 : 0 ≤ x) (h1 : x < 2 ^ 20) :
    x - 1 / 2 ^ 34 ≤ roundDouble x ∧ roundDouble x ≤ x + 1 / 2 ^ 34 := by
  have hu : ulp x ≤ 1 / 2 ^ 33 := by
    have := ulp_le x 19 (by norm_num) h0 (by norm_num; linarith)
    norm_num at this ⊢
    exact this
  have ha := roundDouble_le_add x
  have hb := sub_le_roundDouble x
  constructor <;> linarith

/-- The rounded product `Math.random() * 900000` stays one unit below 900000. -/
theorem product_le (p : ℚ) (h0 : 0 ≤ p) (h1 : p ≤ 900000 * (1 - 1 / 2 ^ 53)) :
    roundDouble p ≤ 900000 - 1 / 2 ^ 33 := by
  by_cases hlow : p < 2 ^ 19
  · have := (roundDouble_error p h0 (by linarith)).2
    have hu : ulp p ≤ 1 / 2 ^ 34 := by
      have := ulp_le p 18 (by norm_num) h0 (by norm_num; linarith)
      norm_num at this ⊢
      exact this
    have ha := roundDouble_le_add p
    norm_num at hlow ⊢
    linarith
  · have hge : (2 : ℚ) ^ 19 ≤ p := le_of_not_lt hlow
    have hu : ulp p = 1 / 2 ^ 33 := by
      rw [ulp_eq p 19 (by norm_num) (by norm_num; linarith) (by norm_num; linarith)]
      norm_num
    have h := roundDouble_le_of_multiple p (900000 * 2 ^ 33 - 1)
      (by rw [hu]; push_cast; norm_num at h1 ⊢; linarith)
    rw [hu] at h
    push_cast at h
    norm_num at h ⊢
    linarith

/-- The rounded sum stays in `[100000, 1000000)`. -/
theorem sum_range (s : ℚ) (h0 : 100000 ≤ s) (h1 : s ≤ 1000000 - 1 / 2 ^ 33) :
    100000 ≤ roundDouble s ∧ roundDouble s < 1000000 := by
  have hs0 : (0 : ℚ) ≤ s := by linarith
  have hs20 : s < 2 ^ 20 := by norm_num at h1 ⊢; linarith
  constructor
  · by_cases h17 : s < 2 ^ 17
    · have hu : ulp s = 1 / 2 ^ 36 := by
        rw [ulp_eq s 16 (by norm_num) (by norm_num; linarith) (by norm_num; linarith)]
        norm_num
      have h := le_roundDouble_of_multiple s (100000 * 2 ^ 36)
        (by rw [hu]; push_cast; norm_num; linarith)
      rw [hu] at h
      push_cast at h
      norm_num at h ⊢
      linarith
    · have := (roundDouble_error s hs0 hs20).1
      norm_num at h17 this ⊢
      linarith
  · by_cases hlow : s < 2 ^ 19
    · have := (roundDouble_error s hs0 hs20).2
      norm_num at hlow this ⊢
      linarith
    · have hge : (2 : ℚ) ^ 19 ≤ s := le_of_not_lt hlow
      have hu : ulp s = 1 / 2 ^ 33 := by
        rw [ulp_eq s 19 (by norm_num) (by norm_num; linarith) (by norm_num; linarith)]
        norm_num
      have h := roundDouble_le_of_multiple s (1000000 * 2 ^ 33 - 1)
        (by rw [hu]; push_cast; norm_num at h1 ⊢; linarith)
      rw [hu] at h
      push_cast at h
      norm_num at h ⊢
      linarith

theorem otpNumber_range (r : ℚ) (hd : isDouble r) (h0 : 0 ≤ r) (h1 : r < 1) :
    100000 ≤ otpNumber r ∧ otpNumber r ≤ 999999 := by
  have hr := isDouble_lt_one r hd h0 h1
  have hp0 : (0 : ℚ) ≤ r * 900000 := by positivity
  have hp1 : r * 900000 ≤ 900000 * (1 - 1 / 2 ^ 53) := by linarith
  have hq0 := roundDouble_nonneg _ hp0
  have hq1 := product_le _ hp0 hp1
  obtain ⟨hs0, hs1⟩ := sum_range (100000 + roundDouble (r * 900000)) (by linarith)
    (by linarith)
  unfold otpNumber
  constructor
  · exact Int.le_floor.mpr (by exact_mod_cast hs0)
  · have : Int.floor (roundDouble (100000 + roundDouble (r * 900000))) < 1000000 :=
      Int.floor_lt.mpr (by exact_mod_cast hs1)
    omega

/-- The number computed in doubles is the floor of the exact value up to
`2^-33`. -/
theorem otpNumber_near (r : ℚ) (h0 : 0 ≤ r) (h1 : r < 1) :
    (otpNumber r : ℚ) ≤ 100000 + r * 900000 + 1 / 2 ^ 33 ∧
      100000 + r * 900000 - 1 / 2 ^ 33 < otpNumber r + 1 := by
  have hp0 : (0 : ℚ) ≤ r * 900000 := by positivity
  have hp1 : r * 900000 < 2 ^ 20 := by norm_num; linarith
  obtain ⟨ha, hb⟩ := roundDouble_error _ hp0 hp1
  have hq0 := roundDouble_nonneg _ hp0
  have hs0 : (0 : ℚ) ≤ 100000 + roundDouble (r * 900000) := by linarith
  have hs1 : 100000 + roundDouble (r * 900000) < 2 ^ 20 := by
    norm_num at hb ⊢; linarith
  obtain ⟨hc, hd⟩ := roundDouble_error _ hs0 hs1
  have hf1 := Int.floor_le (roundDouble (100000 + roundDouble (r * 900000)))
  have hf2 := Int.lt_floor_add_one (roundDouble (100000 + roundDouble (r * 900000)))
  unfold otpNumber
  norm_num at ha hb hc hd ⊢
  constructor <;> linarith

theorem roundDouble_zero : roundDouble 0 = 0 := by
  unfold roundDouble
  simp [roundHalfEven]

/-- A value `k * 2^(e-52)` of the binade `[2^e, 2^(e+1))` is a double. -/
theorem roundDouble_exact (x : ℚ) (e k : ℤ) (he : -1022 ≤ e) (h1 : (2 : ℚ) ^ e ≤ x)
    (h2 : x < (2 : ℚ) ^ (e + 1)) (hk : x = k * (2 : ℚ) ^ (e - 52)) : roundDouble x = x := by
  apply roundDouble_eq_self x k
  rw [ulp_eq x e he h1 h2]
  exact hk

theorem otpNumber_zero : otpNumber 0 = 100000 := by
  unfold otpNumber
  rw [zero_mul, roundDouble_zero, add_zero,
    roundDouble_exact 100000 16 (100000 * 2 ^ 36) (by norm_num) (by norm_num) (by norm_num)
      (by norm_num)]
  norm_num

theorem otpNumber_half : otpNumber (1 / 2) = 550000 := by
  unfold otpNumber
  have h1 : (1 / 2 : ℚ) * 900000 = 450000 := by norm_num
  have h2 : (100000 : ℚ) + 450000 = 550000 := by norm_num
  rw [h1, roundDouble_exact 450000 18 (450000 * 2 ^ 34) (by norm_num) (by norm_num)
      (by norm_num) (by norm_num), h2,
    roundDouble_exact 550000 19 (550000 * 2 ^ 33) (by norm_num) (by norm_num) (by norm_num)
      (by norm_num)]
  norm_num

theorem isDouble_zero : isDouble 0 := roundDouble_zero

theorem isDouble_half : isDouble (1 / 2) :=
  roundDouble_exact (1 / 2) (-1) (2 ^ 52) (by norm_num) (by norm_num) (by norm_num)
    (by norm_num)

theorem toDigitsCore_succ (f n : Nat) (ds : List Char) :
    Nat.toDigitsCore 10 (f + 1) n ds =
      if n / 10 = 0 then Nat.digitChar (n % 10) :: ds
      else Nat.toDigitsCore 10 f (n / 10) (Nat.digitChar (n % 10) :: ds) := by
  simp [Nat.toDigitsCore]

theorem digitChar_isDigit (d : Nat) (h : d < 10) : isDigitChar (Nat.digitChar d) = true := by
  unfold isDigitChar
  interval_cases d <;> decide

/-- The decimal string of a number of `[100000, 999999]` is made of its six
decimal digits. -/
theorem repr_six (n : Nat) (h1 : 100000 ≤ n) (h2 : n ≤ 999999) :
    Nat.repr n = ⟨[Nat.digitChar (n / 100000 % 10), Nat.digitChar (n / 10000 % 10),
      Nat.digitChar (n / 1000 % 10), Nat.digitChar (n / 100 % 10),
      Nat.digitChar (n / 10 % 10), Nat.digitChar (n % 10)]⟩ := by
  obtain ⟨k, hk⟩ : ∃ k, n + 1 = k + 6 := ⟨n - 5, by omega⟩
  have e1 : n / 10 ≠ 0 := by omega
  have e2 : n / 10 / 10 ≠ 0 := by omega
  have e3 : n / 10 / 10 / 10 ≠ 0 := by omega
  have e4 : n / 10 / 10 / 10 / 10 ≠ 0 := by omega
  have e5 : n / 10 / 10 / 10 / 10 / 10 ≠ 0 := by omega
  have e6 : n / 10 / 10 / 10 / 10 / 10 / 10 = 0 := by omega
  simp only [Nat.repr, Nat.toDigits, hk, toDigitsCore_succ, e1, e2, e3, e4, e5, e6, if_true,
    if_false, List.asString]
  simp [Nat.div_div_eq_div_mul]

/-- The generated code is a string of six decimal digits. -/
theorem generateOtp_six_digits (r : ℚ) (hd : isDouble r) (h0 : 0 ≤ r) (h1 : r < 1) :
    (generateOtp r).length = 6 ∧ (generateOtp r).data.all isDigitChar = true := by
  obtain ⟨hlo, hhi⟩ := otpNumber_range r hd h0 h1
  obtain ⟨n, hn⟩ : ∃ n : Nat, otpNumber r = (n : Int) := ⟨(otpNumber r).toNat, by omega⟩
  have hrepr : generateOtp r = Nat.repr n := by
    unfold generateOtp
    rw [hn]
    rfl
  rw [hrepr, repr_six n (by omega) (by omega)]
  have hd : ∀ m : Nat, isDigitChar (Nat.digitChar (m % 10)) = true :=
    fun m => digitChar_isDigit _ (Nat.mod_lt _ (by decide))
  simp [String.length, hd]

theorem sendOtp_found {db : Store} {req : Request} {u : User} (r : ℚ) (now : Nat)
    (sms : Option String) (h : findOne (byMobile req.body.mobile) db = some u) :
    (sendOtp db req r now sms).1 =
      save { u with otp := some (generateOtp r), otpExpiration := some (expirationTime now) } db := by
  simp [sendOtp, h]

theorem forgotPassword_found {db : Store} {req : Request} {u : User} (r : ℚ) (now : Nat)
    (mail : Option String) (h : findOne (byEmail req.body.email) db = some u) :
    (forgotPassword db req r now mail).1 =
      save { u with otp := some (generateOtp r), otpExpiration := some (expirationTime now) } db := by
  simp [forgotPassword, h]

/-- Either flow stores the new challenge on the user its key selects. -/
theorem issue_found {db : Store} {req : Request} {u : User} (flow : Flow) (r : ℚ) (now : Nat)
    (err : Option String)
    (hm : findOne (byMobile req.body.mobile) db = some u)
    (he : findOne (byEmail req.body.email) db = some u) :
    (issue flow db req r now err).1 =
      save { u with otp := some (generateOtp r), otpExpiration := some (expirationTime now) } db := by
  cases flow
  · exact sendOtp_found r now err hm
  · exact forgotPassword_found r now err he

/-- Lookup by mobile after a `save` that keeps the mobile. -/
theorem byMobile_save {db : Store} {m : String} {u v : User}
    (h : findOne (byMobile m) db = some u) (hid : v._id = u._id) (hmob : v.mobile = u.mobile) :
    findOne (byMobile m) (save v db) = some v := by
  apply findOne_save h hid
  have := findOne_holds h
  simp only [byMobile] at this ⊢
  rw [hmob]
  exact this

/-- Lookup by email after a `save` that keeps the email. -/
theorem byEmail_save {db : Store} {e : String} {u v : User}
    (h : findOne (byEmail e) db = some u) (hid : v._id = u._id) (hmail : v.email = u.email) :
    findOne (byEmail e) (save v db) = some v := by
  apply findOne_save h hid
  have := findOne_holds h
  simp only [byEmail] at this ⊢
  rw [hmail]
  exact this

/-- The accepting branch of `verifyOtp`. -/
theorem verifyOtp_accept (env : Env) {db : Store} {req : Request} {u : User} {c : String}
    {e n : Nat} (h : findOne (byMobile req.body.mobile) db = some u)
    (hc : u.otp = some c) (he : u.otpExpiration = some e) (hreq : req.body.otp = .str c)
    (hnow : n ≤ e) :
    verifyOtp env db req n =
      (save { u with isVerified := true, otp := none, otpExpiration := none } db,
        .sent ⟨200, .msg "OTP verified successfully", some (env.sign u._id)⟩) := by
  have hlt : ¬ e < n := by omega
  simp [verifyOtp, h, hc, he, hreq, strictNe_same, dateNumber, hlt]

/-- The mismatch branch of `verifyOtp`. -/
theorem verifyOtp_mismatch (env : Env) {db : Store} {req : Request} {u : User} (now : Nat)
    (h : findOne (byMobile req.body.mobile) db = some u)
    (hne : strictNe u.otp req.body.otp = true) :
    verifyOtp env db req now = (db, reply 400 "Invalid OTP") := by
  simp [verifyOtp, h, hne]

/-- The expiry branch of `verifyOtp`. -/
theorem verifyOtp_expired (env : Env) {db : Store} {req : Request} {u : User} {now : Nat}
    (h : findOne (byMobile req.body.mobile) db = some u)
    (hne : strictNe u.otp req.body.otp = false)
    (hexp : dateNumber u.otpExpiration < now) :
    verifyOtp env db req now = (db, reply 400 "OTP expired") := by
  simp [verifyOtp, h, hne, hexp]

/-- The accepting branch of `resetPassword`. -/
theorem resetPassword_accept (env : Env) {db : Store} {req : Request} {u : User}
    {c q : String} {e n : Nat} (salt : String)
    (h : findOne (byEmail req.body.email) db = some u)
    (hc : u.otp = some c) (he : u.otpExpiration = some e) (hreq : req.body.otp = .str c)
    (hpw : req.body.password = .str q) (hnow : n ≤ e) :
    resetPassword env db req n salt =
      (save { u with password := env.hash q salt, otp := none, otpExpiration := none } db,
        reply 200 "Password reset successfully") := by
  have hlt : ¬ e < n := by omega
  simp [resetPassword, h, hc, he, hreq, hpw, strictNe_same, dateNumber, hlt]

/-- The mismatch branch of `resetPassword`. -/
theorem resetPassword_mismatch (env : Env) {db : Store} {req : Request} {u : User} (now : Nat)
    (salt : String) (h : findOne (byEmail req.body.email) db = some u)
    (hne : strictNe u.otp req.body.otp = true) :
    resetPassword env db req now salt = (db, reply 400 "Invalid OTP") := by
  simp [resetPassword, h, hne]

/-- The expiry branch of `resetPassword`. -/
theorem resetPassword_expired (env : Env) {db : Store} {req : Request} {u : User} {now : Nat}
    (salt : String) (h : findOne (byEmail req.body.email) db = some u)
    (hne : strictNe u.otp req.body.otp = false)
    (hexp : dateNumber u.otpExpiration < now) :
    resetPassword env db req now salt = (db, reply 400 "OTP expired") := by
  simp [resetPassword, h, hne, hexp]

theorem save_save {db : Store} {v w : User} (hid : v._id = w._id) :
    save v (save w db) = save v db := by
  unfold save
  rw [List.map_map]
  apply List.map_congr_left
  intro x _
  by_cases hx : x._id = w._id
  · simp [hx, hid]
  · simp [hx, hid]

theorem generateOtp_eq (r : ℚ) : generateOtp r = toString (otpNumber r) := rfl

theorem generateOtp_zero : generateOtp 0 = "100000" := by
  rw [generateOtp_eq, otpNumber_zero]
  decide

theorem generateOtp_half : generateOtp (1 / 2) = "550000" := by
  rw [generateOtp_eq, otpNumber_half]
  decide

theorem otpError_invalid : otpError (reply 400 "Invalid OTP") = some .Mismatch := by
  decide

theorem otpError_expired : otpError (reply 400 "OTP expired") = some .Expired := by
  decide

/-! ## C1: a code is accepted once -/

/-- C1 (as the code behaves): after `sendOtp` stored the code on the user, a
`verifyOtp` carrying exactly that code before the expiry answers 200, marks the
user verified and clears the challenge; a second `verifyOtp` with the same code
is refused with the message "Invalid OTP" (the mismatch error, status 400) and
changes nothing. -/
theorem otp_accepted_exactly_once (env : Env) (db : Store) (u : User)
    (reqS reqV : Request) (r : ℚ) (t now later : Nat) (sms : Option String)
    (hfind : findOne (byMobile reqS.body.mobile) db = some u)
    (hmob : reqV.body.mobile = reqS.body.mobile)
    (hotp : reqV.body.otp = .str (generateOtp r))
    (hnow : now < expirationTime t) :
    verifyOtp env (sendOtp db reqS r t sms).1 reqV now =
        (save { u with isVerified := true, otp := none, otpExpiration := none } db,
          .sent ⟨200, .msg "OTP verified successfully", some (env.sign u._id)⟩) ∧
      verifyOtp env (verifyOtp env (sendOtp db reqS r t sms).1 reqV now).1 reqV later =
        (save { u with isVerified := true, otp := none, otpExpiration := none } db,
          reply 400 "Invalid OTP") ∧
      otpError (verifyOtp env (verifyOtp env (sendOtp db reqS r t sms).1 reqV now).1
        reqV later).2 = some .Mismatch := by
  have h1 := byMobile_save
    (v := { u with otp := some (generateOtp r), otpExpiration := some (expirationTime t) })
    hfind rfl rfl
  rw [← sendOtp_found r t sms hfind, ← hmob] at h1
  have hv := verifyOtp_accept env (c := generateOtp r) (e := expirationTime t) (n := now)
    h1 rfl rfl hotp (by omega)
  rw [sendOtp_found r t sms hfind] at hv
  simp only [save_save] at hv
  rw [← sendOtp_found r t sms hfind] at hv
  have hv1 : verifyOtp env (sendOtp db reqS r t sms).1 reqV now =
      (save { u with isVerified := true, otp := none, otpExpiration := none } db,
        .sent ⟨200, .msg "OTP verified successfully", some (env.sign u._id)⟩) := hv
  have h2 := byMobile_save
    (v := { u with isVerified := true, otp := none, otpExpiration := none })
    hfind rfl rfl
  rw [← hmob] at h2
  have hv2 := verifyOtp_mismatch env later h2
    (by rw [hotp]; exact strictNe_null_string _)
  refine ⟨hv1, ?_, ?_⟩
  · rw [hv1]; exact hv2
  · rw [hv1]
    show otpError (verifyOtp env _ reqV later).2 = _
    rw [hv2]
    exact otpError_invalid

/-- Witness for C1: Alice, draw 0, issued at time 0,
verified at time 1. -/
theorem otp_accepted_exactly_once_witness :
    (verifyOtp sampleEnv
        (sendOtp sampleDb (mkReq "9991112222" "" .undefined .undefined) 0 0 none).1
        (mkReq "9991112222" "" (.str (generateOtp 0)) .undefined) 1).2 =
      .sent ⟨200, .msg "OTP verified successfully", some "jwt.1"⟩ :=
  (congrArg Prod.snd
    (otp_accepted_exactly_once sampleEnv sampleDb alice
      (mkReq "9991112222" "" .undefined .undefined)
      (mkReq "9991112222" "" (.str (generateOtp 0)) .undefined) 0 0 1 5 none
      (by decide) rfl rfl (by decide)).1).trans (by decide)

/-- C1 (counterexample): the replay of a consumed code is not answered with the
not-found error: for Alice, code "100000" issued at time 0 and accepted at time
1, the second `verifyOtp` at time 2 answers 400 "Invalid OTP", the mismatch
error. -/
theorem replay_is_mismatch_not_notfound :
    (verifyOtp sampleEnv
        (verifyOtp sampleEnv
          (sendOtp sampleDb (mkReq "9991112222" "" .undefined .undefined) 0 0 none).1
          (mkReq "9991112222" "" (.str "100000") .undefined) 1).1
        (mkReq "9991112222" "" (.str "100000") .undefined) 2).2 = reply 400 "Invalid OTP" ∧
      otpError (verifyOtp sampleEnv
        (verifyOtp sampleEnv
          (sendOtp sampleDb (mkReq "9991112222" "" .undefined .undefined) 0 0 none).1
          (mkReq "9991112222" "" (.str "100000") .undefined) 1).1
        (mkReq "9991112222" "" (.str "100000") .undefined) 2).2 ≠ some .NotFound := by
  have hs : (sendOtp sampleDb (mkReq "9991112222" "" .undefined .undefined) 0 0 none).1 =
      [{ alice with otp := some "100000", otpExpiration := some 600000 }, bob] := by
    rw [sendOtp_found (u := alice) 0 0 none (by decide), generateOtp_zero]
    decide
  rw [hs]
  constructor <;> decide

/-! ## C2: the expiry check -/

/-- C2 (as the code behaves): for a user with the outstanding challenge
`(c, e)` and every time `now` strictly after `e`, `verifyOtp` and
`resetPassword` called with the correct code answer 400 "OTP expired" and leave
the collection unchanged (so `isVerified` is not set and the password is not
replaced). -/
theorem expired_otp_rejected (env : Env) (db : Store) (u : User) (reqV reqR : Request)
    (c : String) (e now : Nat) (salt : String)
    (hm : findOne (byMobile reqV.body.mobile) db = some u)
    (he : findOne (byEmail reqR.body.email) db = some u)
    (hc : u.otp = some c) (hexp : u.otpExpiration = some e)
    (hv : reqV.body.otp = .str c) (hr : reqR.body.otp = .str c)
    (hnow : e < now) :
    verifyOtp env db reqV now = (db, reply 400 "OTP expired") ∧
      resetPassword env db reqR now salt = (db, reply 400 "OTP expired") ∧
      otpError (verifyOtp env db reqV now).2 = some .Expired ∧
      otpError (resetPassword env db reqR now salt).2 = some .Expired := by
  have h1 : verifyOtp env db reqV now = (db, reply 400 "OTP expired") :=
    verifyOtp_expired env hm (by rw [hc, hv]; exact strictNe_same c)
      (by rw [hexp]; exact hnow)
  have h2 : resetPassword env db reqR now salt = (db, reply 400 "OTP expired") :=
    resetPassword_expired env salt he (by rw [hc, hr]; exact strictNe_same c)
      (by rw [hexp]; exact hnow)
  refine ⟨h1, h2, ?_, ?_⟩
  · rw [h1]; exact otpError_expired
  · rw [h2]; exact otpError_expired

/-- Witness for C2: Bob's challenge ("123456", 1000) at time
1001. -/
theorem expired_otp_rejected_witness :
    verifyOtp sampleEnv sampleDb (mkReq "9993334444" "" (.str "123456") .undefined) 1001 =
      (sampleDb, reply 400 "OTP expired") :=
  (expired_otp_rejected sampleEnv sampleDb bob
    (mkReq "9993334444" "" (.str "123456") .undefined)
    (mkReq "" "bob@example.com" (.str "123456") (.str "newpass")) "123456" 1000 1001 "s"
    (by decide) (by decide) rfl rfl rfl rfl (by decide)).1

/-- C2 (counterexample): at `now = expiresAt` exactly the code is still
accepted.  Bob's challenge is ("123456", 1000); at time 1000 `verifyOtp` answers
200 and sets `isVerified`, and `resetPassword` answers 200 and replaces the
password. -/
theorem otp_accepted_at_expiry_instant :
    verifyOtp sampleEnv sampleDb (mkReq "9993334444" "" (.str "123456") .undefined) 1000 =
        ([alice, { bob with isVerified := true, otp := none, otpExpiration := none }],
          .sent ⟨200, .msg "OTP verified successfully", some "jwt.2"⟩) ∧
      resetPassword sampleEnv sampleDb
          (mkReq "" "bob@example.com" (.str "123456") (.str "newpass")) 1000 "s" =
        ([alice, { bob with password := "s$newpass", otp := none, otpExpiration := none }],
          reply 200 "Password reset successfully") := by
  constructor <;> decide

/-! ## C3: a wrong code keeps the challenge -/

/-- C3: for a user with the outstanding challenge `(c, e)` and every claimed
value different from `c`, `verifyOtp` answers 400 "Invalid OTP" and leaves the
collection (hence the stored code and expiry) unchanged; a later `verifyOtp`
with `c` before `e` then answers 200, marks the user verified and clears the
challenge. -/
theorem wrong_otp_keeps_challenge (env : Env) (db : Store) (u : User)
    (reqBad reqGood : Request) (c : String) (e now later : Nat)
    (hm : findOne (byMobile reqBad.body.mobile) db = some u)
    (hmob : reqGood.body.mobile = reqBad.body.mobile)
    (hc : u.otp = some c) (hexp : u.otpExpiration = some e)
    (hbad : reqBad.body.otp ≠ .str c) (hgood : reqGood.body.otp = .str c)
    (hlater : later < e) :
    verifyOtp env db reqBad now = (db, reply 400 "Invalid OTP") ∧
      findOne (byMobile reqBad.body.mobile) (verifyOtp env db reqBad now).1 = some u ∧
      verifyOtp env (verifyOtp env db reqBad now).1 reqGood later =
        (save { u with isVerified := true, otp := none, otpExpiration := none } db,
          .sent ⟨200, .msg "OTP verified successfully", some (env.sign u._id)⟩) := by
  have h1 : verifyOtp env db reqBad now = (db, reply 400 "Invalid OTP") :=
    verifyOtp_mismatch env now hm (by rw [hc]; exact strictNe_other c _ hbad)
  refine ⟨h1, ?_, ?_⟩
  · rw [h1]; exact hm
  · rw [h1]
    exact verifyOtp_accept env (by rw [hmob]; exact hm) hc hexp hgood (by omega)

/-- Witness for C3: Bob, wrong value `null`, then the
right code at time 999. -/
theorem wrong_otp_keeps_challenge_witness :
    verifyOtp sampleEnv sampleDb (mkReq "9993334444" "" .null .undefined) 5 =
      (sampleDb, reply 400 "Invalid OTP") :=
  (wrong_otp_keeps_challenge sampleEnv sampleDb bob
    (mkReq "9993334444" "" .null .undefined)
    (mkReq "9993334444" "" (.str "123456") .undefined) "123456" 1000 5 999
    (by decide) rfl rfl rfl (by decide) rfl (by decide)).1

/-! ## C4: a new issuance replaces the previous challenge -/

/-- C4 (as the code behaves): after two sequential issuances (each through
`sendOtp` or `forgotPassword`) with codes `c1` then `c2` for the same user,
the stored challenge is exactly the second one, and when `c1` differs from `c2`
a `verifyOtp` with `c1` answers 400 "Invalid OTP" and changes nothing. -/
theorem reissue_invalidates_previous (env : Env) (db : Store) (u : User)
    (req reqV : Request) (f1 f2 : Flow) (r1 r2 : ℚ) (t1 t2 now : Nat)
    (err1 err2 : Option String)
    (hm : findOne (byMobile req.body.mobile) db = some u)
    (he : findOne (byEmail req.body.email) db = some u)
    (hmob : reqV.body.mobile = req.body.mobile)
    (hotp : reqV.body.otp = .str (generateOtp r1))
    (hne : generateOtp r1 ≠ generateOtp r2) :
    findOne (byMobile req.body.mobile)
        (issue f2 (issue f1 db req r1 t1 err1).1 req r2 t2 err2).1 =
        some { u with otp := some (generateOtp r2),
                      otpExpiration := some (expirationTime t2) } ∧
      verifyOtp env (issue f2 (issue f1 db req r1 t1 err1).1 req r2 t2 err2).1 reqV now =
        ((issue f2 (issue f1 db req r1 t1 err1).1 req r2 t2 err2).1,
          reply 400 "Invalid OTP") := by
  have hm1 := byMobile_save
    (v := { u with otp := some (generateOtp r1), otpExpiration := some (expirationTime t1) })
    hm rfl rfl
  have he1 := byEmail_save
    (v := { u with otp := some (generateOtp r1), otpExpiration := some (expirationTime t1) })
    he rfl rfl
  rw [← issue_found f1 r1 t1 err1 hm he] at hm1 he1
  have hm2 := byMobile_save
    (v := { u with otp := some (generateOtp r2), otpExpiration := some (expirationTime t2) })
    hm1 rfl rfl
  have hi2 := issue_found f2 r2 t2 err2 hm1 he1
  dsimp only at hi2
  rw [← hi2] at hm2
  refine ⟨hm2, ?_⟩
  apply verifyOtp_mismatch env now (by rw [hmob]; exact hm2)
  rw [hotp]
  apply strictNe_other
  intro h
  injection h with h
  exact hne h

/-- Witness for C4: Alice, first code by SMS with
draw 0, second code by mail with draw 1/2. -/
theorem reissue_invalidates_previous_witness :
    verifyOtp sampleEnv
        (issue .mail (issue .sms sampleDb
          (mkReq "9991112222" "alice@example.com" .undefined .undefined) 0 0 none).1
          (mkReq "9991112222" "alice@example.com" .undefined .undefined) (1 / 2) 7 none).1
        (mkReq "9991112222" "" (.str (generateOtp 0)) .undefined) 9 =
      ((issue .mail (issue .sms sampleDb
          (mkReq "9991112222" "alice@example.com" .undefined .undefined) 0 0 none).1
          (mkReq "9991112222" "alice@example.com" .undefined .undefined) (1 / 2) 7 none).1,
        reply 400 "Invalid OTP") :=
  (reissue_invalidates_previous sampleEnv sampleDb alice
    (mkReq "9991112222" "alice@example.com" .undefined .undefined)
    (mkReq "9991112222" "" (.str (generateOtp 0)) .undefined) .sms .mail 0 (1 / 2) 0 7 9
    none none (by decide) (by decide) rfl rfl
    (by rw [generateOtp_zero, generateOtp_half]; decide)).2

/-- C4 (counterexample): two issuances may draw the same code, and then the
first code is still accepted after the second issuance.  Alice receives
"100000" by SMS at time 0 and again "100000" by mail at time 7; `verifyOtp`
with "100000" at time 9 answers 200. -/
theorem reissued_equal_code_still_accepted :
    (verifyOtp sampleEnv
        (issue .mail (issue .sms sampleDb
          (mkReq "9991112222" "alice@example.com" .undefined .undefined) 0 0 none).1
          (mkReq "9991112222" "alice@example.com" .undefined .undefined) 0 7 none).1
        (mkReq "9991112222" "" (.str "100000") .undefined) 9).2 =
      .sent ⟨200, .msg "OTP verified successfully", some "jwt.1"⟩ := by
  have h1 : (issue .sms sampleDb
      (mkReq "9991112222" "alice@example.com" .undefined .undefined) 0 0 none).1 =
      [{ alice with otp := some "100000", otpExpiration := some 600000 }, bob] := by
    rw [issue_found (u := alice) .sms 0 0 none (by decide) (by decide), generateOtp_zero]
    decide
  have h2 : (issue .mail
      [{ alice with otp := some "100000", otpExpiration := some 600000 }, bob]
      (mkReq "9991112222" "alice@example.com" .undefined .undefined) 0 7 none).1 =
      [{ alice with otp := some "100000", otpExpiration := some 600007 }, bob] := by
    rw [issue_found (u := { alice with otp := some "100000", otpExpiration := some 600000 })
      .mail 0 7 none (by decide) (by decide), generateOtp_zero]
    decide
  rw [h1, h2]
  decide

/-! ## C5: range of the code and value of the expiry -/

/-- C5: for every draw `r` of `Math.random()` (a binary64 number with
`0 ≤ r < 1`) and every issuance time `now`, the number
`Math.floor(100000 + r * 900000)`, computed in binary64 arithmetic, lies in
`[100000, 999999]` and is the floor of a value within `2^-33` of the exact
`100000 + 900000 r`; the code is its decimal string of exactly six digits; the
expiry is exactly `now + 600000` and strictly later than `now`; and both
`sendOtp` and `forgotPassword` store exactly this code and this expiry on the
user. -/
theorem otp_code_range_and_expiry (db : Store) (u : User) (req : Request) (r : ℚ)
    (now : Nat) (sms mail : Option String)
    (hd : isDouble r) (h0 : 0 ≤ r) (h1 : r < 1)
    (hm : findOne (byMobile req.body.mobile) db = some u)
    (he : findOne (byEmail req.body.email) db = some u) :
    (100000 ≤ otpNumber r ∧ otpNumber r ≤ 999999) ∧
      ((otpNumber r : ℚ) ≤ 100000 + r * 900000 + 1 / 2 ^ 33 ∧
        100000 + r * 900000 - 1 / 2 ^ 33 < otpNumber r + 1) ∧
      generateOtp r = toString (otpNumber r) ∧
      (generateOtp r).length = 6 ∧ (generateOtp r).data.all isDigitChar = true ∧
      now < now + 600000 ∧
      findOne (byMobile req.body.mobile) (sendOtp db req r now sms).1 =
        some { u with otp := some (generateOtp r), otpExpiration := some (now + 600000) } ∧
      findOne (byEmail req.body.email) (forgotPassword db req r now mail).1 =
        some { u with otp := some (generateOtp r), otpExpiration := some (now + 600000) } := by
  refine ⟨otpNumber_range r hd h0 h1, otpNumber_near r h0 h1, rfl,
    (generateOtp_six_digits r hd h0 h1).1, (generateOtp_six_digits r hd h0 h1).2,
    by omega, ?_, ?_⟩
  · rw [sendOtp_found r now sms hm]
    exact byMobile_save hm rfl rfl
  · rw [forgotPassword_found r now mail he]
    exact byEmail_save he rfl rfl

/-- Witness for C5: Alice, draw 1/2, time 42. -/
theorem otp_code_range_and_expiry_witness :
    (100000 ≤ otpNumber (1 / 2) ∧ otpNumber (1 / 2) ≤ 999999) ∧
      (generateOtp (1 / 2)).length = 6 ∧
      findOne (byMobile "9991112222")
          (sendOtp sampleDb (mkReq "9991112222" "alice@example.com" .undefined .undefined)
            (1 / 2) 42 none).1 =
        some { alice with otp := some (generateOtp (1 / 2)), otpExpiration := some 600042 } :=
  have h := otp_code_range_and_expiry sampleDb alice
    (mkReq "9991112222" "alice@example.com" .undefined .undefined) (1 / 2) 42 none none
    isDouble_half (by norm_num) (by norm_num) (by decide) (by decide)
  ⟨h.1, h.2.2.2.1, h.2.2.2.2.2.2.1⟩

/-! ## C7: duplicate registration -/

/-- C7 (as the code behaves): when the collection holds a user with the mobile
or the email of the registration request, `registerUser` adds no user; it
answers 400 "User already exists" when the request passes the router's
validation, and 422 with the validation errors otherwise. -/
theorem duplicate_registration_rejected (env : Env) (db : Store) (u : User) (req : Request)
    (salt : String) (hu : u ∈ db)
    (hdup : req.body.mobile = u.mobile ∨ req.body.email = u.email) :
    (registerUser env db req salt).1 = db ∧
      (validationResult env req = [] →
        registerUser env db req salt = (db, reply 400 "User already exists")) ∧
      (validationResult env req ≠ [] →
        registerUser env db req salt =
          (db, .sent ⟨422, .errors (validationResult env req), none⟩)) := by
  have hfound : ∃ w, findOne
      (fun x => x.mobile == req.body.mobile || x.email == req.body.email) db = some w := by
    have hsome : (findOne
        (fun x => x.mobile == req.body.mobile || x.email == req.body.email) db).isSome = true := by
      unfold findOne
      rw [List.find?_isSome]
      refine ⟨u, hu, ?_⟩
      rcases hdup with h | h <;> simp [h]
    exact Option.isSome_iff_exists.mp hsome
  obtain ⟨w, hw⟩ := hfound
  have hvalid : validationResult env req = [] →
      registerUser env db req salt = (db, reply 400 "User already exists") := by
    intro hv
    simp [registerUser, hv, hw]
  have hinvalid : validationResult env req ≠ [] →
      registerUser env db req salt =
        (db, .sent ⟨422, .errors (validationResult env req), none⟩) := by
    intro hv
    simp [registerUser, hv]
  refine ⟨?_, hvalid, hinvalid⟩
  by_cases hv : validationResult env req = []
  · rw [hvalid hv]
  · rw [hinvalid hv]

/-- Witness for C7: a valid request with Alice's
mobile and another email. -/
theorem duplicate_registration_rejected_witness :
    registerUser sampleEnv sampleDb
        (registerReq "Eve" "9991112222" "eve@example.com" (.str "secret9")) "s" =
      (sampleDb, reply 400 "User already exists") :=
  (duplicate_registration_rejected sampleEnv sampleDb alice
    (registerReq "Eve" "9991112222" "eve@example.com" (.str "secret9")) "s"
    (by decide) (Or.inl rfl)).2.1 (by decide)

/-- C7 (counterexample): a request with Alice's mobile whose password has
three characters is answered 422 with the validation error, not 400 "User
already exists". -/
theorem duplicate_with_short_password_gets_422 :
    registerUser sampleEnv sampleDb
        (registerReq "Eve" "9991112222" "eve@example.com" (.str "abc")) "s" =
      (sampleDb,
        .sent ⟨422, .errors ["Password must be at least 6 characters long"], none⟩) ∧
      (registerUser sampleEnv sampleDb
        (registerReq "Eve" "9991112222" "eve@example.com" (.str "abc")) "s").2 ≠
        reply 400 "User already exists" := by
  constructor <;> decide

/-! ## C9: no outstanding challenge -/

/-- C9: for a user without challenge (`otp` and `otpExpiration` are `null`),
every time `now > 0` and every claimed value, `verifyOtp` and `resetPassword`
answer with status 400 and leave the collection unchanged: "OTP expired" when
the claimed value is JSON `null`, "Invalid OTP" otherwise. -/
theorem no_challenge_rejected (env : Env) (db : Store) (u : User) (reqV reqR : Request)
    (now : Nat) (salt : String)
    (hm : findOne (byMobile reqV.body.mobile) db = some u)
    (he : findOne (byEmail reqR.body.email) db = some u)
    (hc : u.otp = none) (hexp : u.otpExpiration = none) (hnow : 0 < now) :
    verifyOtp env db reqV now =
        (db, reply 400 (if reqV.body.otp = .null then "OTP expired" else "Invalid OTP")) ∧
      resetPassword env db reqR now salt =
        (db, reply 400 (if reqR.body.otp = .null then "OTP expired" else "Invalid OTP")) := by
  constructor
  · by_cases hv : reqV.body.otp = .null
    · rw [if_pos hv]
      exact verifyOtp_expired env hm (by rw [hc, hv]; rfl) (by rw [hexp]; exact hnow)
    · rw [if_neg hv]
      apply verifyOtp_mismatch env now hm
      rw [hc]
      cases hq : reqV.body.otp <;> simp_all [strictNe]
  · by_cases hv : reqR.body.otp = .null
    · rw [if_pos hv]
      exact resetPassword_expired env salt he (by rw [hc, hv]; rfl) (by rw [hexp]; exact hnow)
    · rw [if_neg hv]
      apply resetPassword_mismatch env now salt he
      rw [hc]
      cases hq : reqR.body.otp <;> simp_all [strictNe]

/-- Witness for C9: Alice has no challenge; the claimed
value is JSON `null`, the time is 1. -/
theorem no_challenge_rejected_witness :
    verifyOtp sampleEnv sampleDb (mkReq "9991112222" "" .null .undefined) 1 =
      (sampleDb, reply 400 "OTP expired") :=
  (no_challenge_rejected sampleEnv sampleDb alice
    (mkReq "9991112222" "" .null .undefined)
    (mkReq "" "alice@example.com" .null (.str "newpass")) 1 "s"
    (by decide) (by decide) rfl rfl (by decide)).1

/-! ## C10: the challenge is shared by the two flows -/

/-- C10: a code issued by `forgotPassword` is accepted by `verifyOtp` before
the expiry (the user becomes verified, the challenge is cleared), and a code
issued by `sendOtp` is accepted by `resetPassword` before the expiry (the
password becomes the hash of the supplied password, the challenge is
cleared). -/
theorem challenge_shared_between_flows (env : Env) (db : Store) (u : User)
    (req reqV reqR : Request) (r : ℚ) (t now : Nat) (sms mail : Option String)
    (salt pw : String)
    (hm : findOne (byMobile req.body.mobile) db = some u)
    (he : findOne (byEmail req.body.email) db = some u)
    (hVm : reqV.body.mobile = req.body.mobile)
    (hVo : reqV.body.otp = .str (generateOtp r))
    (hRm : reqR.body.email = req.body.email)
    (hRo : reqR.body.otp = .str (generateOtp r))
    (hpw : reqR.body.password = .str pw)
    (hnow : now < expirationTime t) :
    verifyOtp env (forgotPassword db req r t mail).1 reqV now =
        (save { u with isVerified := true, otp := none, otpExpiration := none } db,
          .sent ⟨200, .msg "OTP verified successfully", some (env.sign u._id)⟩) ∧
      resetPassword env (sendOtp db req r t sms).1 reqR now salt =
        (save { u with password := env.hash pw salt, otp := none, otpExpiration := none } db,
          reply 200 "Password reset successfully") := by
  have hm1 := byMobile_save
    (v := { u with otp := some (generateOtp r), otpExpiration := some (expirationTime t) })
    hm rfl rfl
  have he1 := byEmail_save
    (v := { u with otp := some (generateOtp r), otpExpiration := some (expirationTime t) })
    he rfl rfl
  rw [← hVm] at hm1
  rw [← hRm] at he1
  constructor
  · rw [forgotPassword_found r t mail he]
    have hv := verifyOtp_accept env (c := generateOtp r) (e := expirationTime t) (n := now)
      hm1 rfl rfl hVo (by omega)
    simp only [save_save] at hv
    exact hv
  · rw [sendOtp_found r t sms hm]
    have hv := resetPassword_accept env (c := generateOtp r) (q := pw)
      (e := expirationTime t) (n := now) salt he1 rfl rfl hRo hpw (by omega)
    simp only [save_save] at hv
    exact hv

/-- Witness for C10: Alice, draw 0, issued at time
0, used at time 5. -/
theorem challenge_shared_between_flows_witness :
    (resetPassword sampleEnv
        (sendOtp sampleDb (mkReq "9991112222" "alice@example.com" .undefined .undefined)
          0 0 none).1
        (mkReq "" "alice@example.com" (.str (generateOtp 0)) (.str "newpass")) 5 "s").2 =
      reply 200 "Password reset successfully" :=
  congrArg Prod.snd
    (challenge_shared_between_flows sampleEnv sampleDb alice
      (mkReq "9991112222" "alice@example.com" .undefined .undefined)
      (mkReq "9991112222" "" (.str (generateOtp 0)) .undefined)
      (mkReq "" "alice@example.com" (.str (generateOtp 0)) (.str "newpass"))
      0 0 5 none none "s" "newpass" (by decide) (by decide) rfl rfl rfl rfl rfl
      (by decide)).2

/-! ## Lemmas on `save` and on runs -/

theorem save_ids (v : User) (db : Store) :
    (save v db).map (fun u => u._id) = db.map (fun u => u._id) := by
  unfold save
  rw [List.map_map]
  apply List.map_congr_left
  intro x _
  by_cases hx : x._id = v._id
  · simp [hx]
  · simp [hx]

theorem mem_save {v x : User} {db : Store} (h : x ∈ save v db) : x = v ∨ x ∈ db := by
  unfold save at h
  rw [List.mem_map] at h
  obtain ⟨y, hy, hxy⟩ := h
  by_cases hc : y._id = v._id
  · left; rw [← hxy]; simp [hc]
  · right; rw [← hxy]; simp [hc, hy]

theorem mem_save_self {v w : User} {db : Store} (hw : w ∈ db) (hid : v._id = w._id) :
    v ∈ save v db := by
  unfold save
  rw [List.mem_map]
  exact ⟨w, hw, by simp [hid]⟩

theorem mem_save_other {v u : User} {db : Store} (hu : u ∈ db) (hne : u._id ≠ v._id) :
    u ∈ save v db := by
  unfold save
  rw [List.mem_map]
  exact ⟨u, hu, by simp [hne]⟩

theorem eq_of_same_id {db : Store} {a b : User} (hids : uniqueIds db) (ha : a ∈ db)
    (hb : b ∈ db) (h : a._id = b._id) : a = b :=
  List.inj_on_of_nodup_map hids ha hb h

/-- With distinct `_id`s, `save` relates each document to itself, except the
saved one. -/
theorem forall₂_save {R : User → User → Prop} {db : Store} {w v : User}
    (hids : uniqueIds db) (hw : w ∈ db) (hid : v._id = w._id) (hR : R w v)
    (hrefl : ∀ a, R a a) : List.Forall₂ R db (save v db) := by
  unfold save
  rw [List.forall₂_map_right_iff, List.forall₂_same]
  intro a ha
  by_cases hc : a._id = v._id
  · have : a = w := eq_of_same_id hids ha hw (hc.trans hid)
    simp only [hc, if_true]
    rw [this]
    exact hR
  · simp only [hc, if_false]
    exact hrefl a

theorem forall₂_refl_of {R : User → User → Prop} (db : Store) (hrefl : ∀ a, R a a) :
    List.Forall₂ R db db :=
  List.forall₂_same.mpr (fun a _ => hrefl a)

theorem le_foldr_max (l : List Nat) (x : Nat) (hx : x ∈ l) : x ≤ l.foldr max 0 := by
  induction l with
  | nil => simp at hx
  | cons y ys ih =>
    simp only [List.foldr]
    rcases List.mem_cons.mp hx with h | h
    · rw [h]; exact le_max_left _ _
    · exact le_trans (ih h) (le_max_right _ _)

theorem freshId_not_mem (db : Store) : freshId db ∉ db.map (fun u => u._id) := by
  intro h
  have := le_foldr_max _ _ h
  unfold freshId at this
  omega

theorem pinValid_truthy {p : String} (h : pinValid p = true) : truthy (some p) = true := by
  unfold truthy
  simp only [Bool.not_eq_true']
  cases hp : p.isEmpty
  · rfl
  · have hemp : p = "" := (String.isEmpty_iff p).mp hp
    rw [hemp] at h
    exact absurd h (by decide)

/-- The three shapes of the collection after one call: unchanged; one existing
document saved, with its pin kept or (when it had none) set to nothing or to a
value the schema admits; one document without pin added under a new `_id`. -/
theorem step_cases (env : Env) (db : Store) (c : Call) :
    (step env db c).1 = db ∨
      (∃ w v, w ∈ db ∧ v._id = w._id ∧
        (v.pin = w.pin ∨
          (truthy w.pin = false ∧ ∀ p, v.pin = some p → pinValid p = true)) ∧
        (step env db c).1 = save v db) ∨
      (∃ n, n._id = freshId db ∧ n.pin = none ∧ (step env db c).1 = db ++ [n]) := by
  cases c with
  | registerUser req salt =>
    simp only [step, registerUser]
    split
    · left; rfl
    · split
      · left; rfl
      · split
        · split
          · right; right
            exact ⟨_, rfl, rfl, rfl⟩
          · left; rfl
        · left; rfl
  | sendOtp req r now sms =>
    simp only [step, sendOtp]
    split
    · left; rfl
    · rename_i user hfind
      right; left
      refine ⟨user, _, findOne_mem hfind, ?_, ?_, rfl⟩
      · rfl
      · exact Or.inl rfl
  | verifyOtp req now =>
    simp only [step, verifyOtp]
    split
    · left; rfl
    · rename_i user hfind
      split
      · left; rfl
      · split
        · left; rfl
        · right; left
          refine ⟨user, _, findOne_mem hfind, ?_, ?_, rfl⟩
          · rfl
          · exact Or.inl rfl
  | setPin req =>
    simp only [step, setPin]
    split
    · left; rfl
    · split
      · left; rfl
      · rename_i user hfind
        split
        · left; rfl
        · rename_i hfalsy
          simp only [Bool.not_eq_true] at hfalsy
          split
          · right; left
            refine ⟨user, _, findOne_mem hfind, ?_, Or.inr ⟨hfalsy, ?_⟩, rfl⟩
            · rfl
            · intro p hp
              exact absurd hp (by simp)
          · split
            · split
              · rename_i p _ hvalid
                right; left
                refine ⟨user, _, findOne_mem hfind, ?_, Or.inr ⟨hfalsy, ?_⟩, rfl⟩
                · rfl
                · intro q hq
                  simp only [Option.some.injEq] at hq
                  rw [← hq]
                  exact hvalid
              · left; rfl
            · left; rfl
  | forgotPassword req r now mail =>
    simp only [step, forgotPassword]
    split
    · left; rfl
    · rename_i user hfind
      right; left
      refine ⟨user, _, findOne_mem hfind, ?_, ?_, rfl⟩
      · rfl
      · exact Or.inl rfl
  | resetPassword req now salt =>
    simp only [step, resetPassword]
    split
    · left; rfl
    · rename_i user hfind
      split
      · left; rfl
      · split
        · left; rfl
        · split
          · right; left
            refine ⟨user, _, findOne_mem hfind, ?_, ?_, rfl⟩
            · rfl
            · exact Or.inl rfl
          · left; rfl
  | login req =>
    simp only [step, login]
    split
    · left; rfl
    · split
      · split
        · left; rfl
        · left; rfl
      · left; rfl

/-- One call keeps the `_id`s distinct and the stored pins valid. -/
theorem step_invariant (env : Env) (db : Store) (c : Call)
    (hids : uniqueIds db) (hpins : pinsValid db) :
    uniqueIds (step env db c).1 ∧ pinsValid (step env db c).1 := by
  rcases step_cases env db c with h | ⟨w, v, hw, hid, hpin, h⟩ | ⟨n, hn, hnp, h⟩
  · rw [h]; exact ⟨hids, hpins⟩
  · rw [h]
    refine ⟨?_, ?_⟩
    · unfold uniqueIds
      rw [save_ids]
      exact hids
    · intro x hx p hp
      rcases mem_save hx with hxv | hxdb
      · rw [hxv] at hp
        rcases hpin with hk | ⟨_, hk⟩
        · rw [hk] at hp
          exact hpins w hw p hp
        · exact hk p hp
      · exact hpins x hxdb p hp
  · rw [h]
    refine ⟨?_, ?_⟩
    · unfold uniqueIds at hids ⊢
      rw [List.map_append, List.nodup_append]
      refine ⟨hids, by simp, ?_⟩
      intro a ha hb
      simp only [List.map_cons, List.map_nil, List.mem_singleton] at hb
      rw [hb, hn] at ha
      exact freshId_not_mem db ha
    · intro x hx p hp
      rcases List.mem_append.mp hx with hxdb | hxn
      · exact hpins x hxdb p hp
      · simp only [List.mem_singleton] at hxn
        rw [hxn, hnp] at hp
        simp at hp

/-- One call keeps every pin that is set. -/
theorem step_keeps_pin (env : Env) (db : Store) (c : Call)
    (hids : uniqueIds db) (hpins : pinsValid db) (u : User) (p : String)
    (hu : u ∈ db) (hp : u.pin = some p) :
    ∃ v ∈ (step env db c).1, v._id = u._id ∧ v.pin = some p := by
  rcases step_cases env db c with h | ⟨w, v, hw, hid, hpin, h⟩ | ⟨n, _, _, h⟩
  · rw [h]; exact ⟨u, hu, rfl, hp⟩
  · rw [h]
    by_cases hc : u._id = v._id
    · have huw : u = w := eq_of_same_id hids hu hw (hc.trans hid)
      refine ⟨v, mem_save_self hw hid, hc.symm, ?_⟩
      rcases hpin with hk | ⟨hfalsy, _⟩
      · rw [hk, ← huw]; exact hp
      · rw [← huw, hp, pinValid_truthy (hpins u hu p hp)] at hfalsy
        exact absurd hfalsy (by decide)
    · exact ⟨u, mem_save_other hu hc, rfl, hp⟩
  · rw [h]
    exact ⟨u, List.mem_append_left _ hu, rfl, hp⟩

theorem run_invariant (env : Env) (cs : List Call) :
    ∀ db, uniqueIds db → pinsValid db → uniqueIds (run env db cs) ∧ pinsValid (run env db cs) := by
  induction cs with
  | nil => intro db h1 h2; exact ⟨h1, h2⟩
  | cons c cs ih =>
    intro db h1 h2
    obtain ⟨h3, h4⟩ := step_invariant env db c h1 h2
    exact ih _ h3 h4

theorem run_keeps_pin (env : Env) (cs : List Call) :
    ∀ db, uniqueIds db → pinsValid db → ∀ (u : User) (p : String), u ∈ db → u.pin = some p →
      ∃ v ∈ run env db cs, v._id = u._id ∧ v.pin = some p := by
  induction cs with
  | nil => intro db _ _ u p hu hp; exact ⟨u, hu, rfl, hp⟩
  | cons c cs ih =>
    intro db h1 h2 u p hu hp
    obtain ⟨h3, h4⟩ := step_invariant env db c h1 h2
    obtain ⟨v, hv, hvid, hvp⟩ := step_keeps_pin env db c h1 h2 u p hu hp
    obtain ⟨x, hx, hxid, hxp⟩ := ih _ h3 h4 v p hv hvp
    exact ⟨x, hx, hxid.trans hvid, hxp⟩

/-! ## C6: the pin is set once -/

/-- C6: `setPin` on behalf of a user without pin and with a 4-digit string
answers 200 and stores that string verbatim; `setPin` on behalf of a user whose
pin is set answers 400 "PIN already set" whatever the request carries and
leaves the collection unchanged; and in every collection reached from the
empty one by calls of the handlers, every pin that is set is a 4-digit string
and is still the pin of that user after any further calls. -/
theorem pin_set_once (env : Env) (db : Store) (u : User) (id : Nat) (req : Request)
    (cs1 cs2 : List Call)
    (hfind : findById id db = some u) (hreq : req.user = some id) :
    (∀ q, u.pin = none → req.body.pin = .str q → pinValid q = true →
        setPin db req = (save { u with pin := some q } db, reply 200 "PIN set successfully") ∧
          findById id (setPin db req).1 = some { u with pin := some q }) ∧
      (∀ p, u.pin = some p → pinValid p = true →
        setPin db req = (db, reply 400 "PIN already set")) ∧
      (∀ w p, w ∈ run env [] cs1 → w.pin = some p →
        pinValid p = true ∧
          ∃ v ∈ run env (run env [] cs1) cs2, v._id = w._id ∧ v.pin = some p) := by
  refine ⟨?_, ?_, ?_⟩
  · intro q hnone hbody hvalid
    have hset : setPin db req =
        (save { u with pin := some q } db, reply 200 "PIN set successfully") := by
      simp [setPin, hreq, hfind, hnone, truthy, hbody, JsVal.castString, hvalid]
    refine ⟨hset, ?_⟩
    rw [hset]
    unfold findById at hfind ⊢
    exact findOne_save hfind rfl (findOne_holds hfind)
  · intro p hp hvalid
    have ht : truthy u.pin = true := by rw [hp]; exact pinValid_truthy hvalid
    simp [setPin, hreq, hfind, ht]
  · intro w p hw hp
    have h0 : uniqueIds ([] : Store) ∧ pinsValid ([] : Store) :=
      ⟨List.nodup_nil, fun x hx => absurd hx (List.not_mem_nil x)⟩
    obtain ⟨h1, h2⟩ := run_invariant env cs1 [] h0.1 h0.2
    exact ⟨h2 w hw p hp, run_keeps_pin env cs2 _ h1 h2 w p hw hp⟩

/-- Witness for C6: Alice (no pin) sets "1234"; Bob (pin "1234")
is refused; after a registration and a first `setPin`, a second `setPin` keeps
the pin. -/
theorem pin_set_once_witness :
    setPin sampleDb (pinReq 1 (.str "1234")) =
        (save { alice with pin := some "1234" } sampleDb, reply 200 "PIN set successfully") ∧
      setPin sampleDb (pinReq 2 (.str "9999")) = (sampleDb, reply 400 "PIN already set") ∧
      ∃ v ∈ run sampleEnv
          (run sampleEnv []
            [.registerUser (registerReq "Alice" "9991112222" "alice@example.com"
              (.str "secret1")) "salt", .setPin (pinReq 1 (.str "1234"))])
          [.setPin (pinReq 1 (.str "9999"))],
        v._id = 1 ∧ v.pin = some "1234" :=
  ⟨((pin_set_once sampleEnv sampleDb alice 1 (pinReq 1 (.str "1234")) [] []
      (by decide) rfl).1 "1234" rfl rfl (by decide)).1,
    (pin_set_once sampleEnv sampleDb bob 2 (pinReq 2 (.str "9999")) [] []
      (by decide) rfl).2.1 "1234" rfl (by decide),
    ((pin_set_once sampleEnv sampleDb alice 1 (pinReq 1 (.str "1234"))
      [.registerUser (registerReq "Alice" "9991112222" "alice@example.com"
        (.str "secret1")) "salt", .setPin (pinReq 1 (.str "1234"))]
      [.setPin (pinReq 1 (.str "9999"))]
      (by decide) rfl).2.2 { alice with pin := some "1234" } "1234"
        (by decide) rfl).2⟩

/-! ## C8: the fields each handler changes -/

/-- C8: in a collection with distinct `_id`s every handler relates each
document to itself or to the same document with only the listed fields
changed: `sendOtp` and `forgotPassword` set `otp` and `otpExpiration` to the new
challenge; `verifyOtp` sets `isVerified` and clears `otp` and `otpExpiration`;
`setPin` changes `pin` only; `resetPassword` sets `password` to the hash of
the supplied password and clears `otp` and `otpExpiration`.  When `verifyOtp`
(resp. `resetPassword`) answers 200, the user it looked up is the changed
one. -/
theorem handlers_change_only_listed_fields (env : Env) (db : Store) (req : Request)
    (r : ℚ) (now : Nat) (err : Option String) (salt : String) (hids : uniqueIds db) :
    List.Forall₂
        (fun a b => b = a ∨ b = { a with otp := some (generateOtp r),
                                         otpExpiration := some (expirationTime now) })
        db (sendOtp db req r now err).1 ∧
      List.Forall₂
        (fun a b => b = a ∨ b = { a with otp := some (generateOtp r),
                                         otpExpiration := some (expirationTime now) })
        db (forgotPassword db req r now err).1 ∧
      List.Forall₂
        (fun a b => b = a ∨
          b = { a with isVerified := true, otp := none, otpExpiration := none })
        db (verifyOtp env db req now).1 ∧
      List.Forall₂ (fun a b => b = { a with pin := b.pin }) db (setPin db req).1 ∧
      List.Forall₂
        (fun a b => b = a ∨ ∃ pw, req.body.password = .str pw ∧
          b = { a with password := env.hash pw salt, otp := none, otpExpiration := none })
        db (resetPassword env db req now salt).1 ∧
      (∀ u, findOne (byMobile req.body.mobile) db = some u →
        (verifyOtp env db req now).2 =
          .sent ⟨200, .msg "OTP verified successfully", some (env.sign u._id)⟩ →
        findOne (byMobile req.body.mobile) (verifyOtp env db req now).1 =
          some { u with isVerified := true, otp := none, otpExpiration := none }) ∧
      (∀ u, findOne (byEmail req.body.email) db = some u →
        (resetPassword env db req now salt).2 = reply 200 "Password reset successfully" →
        ∃ pw, req.body.password = .str pw ∧
          findOne (byEmail req.body.email) (resetPassword env db req now salt).1 =
            some { u with password := env.hash pw salt, otp := none,
                          otpExpiration := none }) := by
  refine ⟨?_, ?_, ?_, ?_, ?_, ?_, ?_⟩
  · simp only [sendOtp]
    split
    · exact forall₂_refl_of db (fun a => Or.inl rfl)
    · rename_i user hfind
      exact forall₂_save hids (findOne_mem hfind) rfl (Or.inr rfl) (fun a => Or.inl rfl)
  · simp only [forgotPassword]
    split
    · exact forall₂_refl_of db (fun a => Or.inl rfl)
    · rename_i user hfind
      exact forall₂_save hids (findOne_mem hfind) rfl (Or.inr rfl) (fun a => Or.inl rfl)
  · simp only [verifyOtp]
    split
    · exact forall₂_refl_of db (fun a => Or.inl rfl)
    · rename_i user hfind
      split
      · exact forall₂_refl_of db (fun a => Or.inl rfl)
      · split
        · exact forall₂_refl_of db (fun a => Or.inl rfl)
        · exact forall₂_save hids (findOne_mem hfind) rfl (Or.inr rfl) (fun a => Or.inl rfl)
  · simp only [setPin]
    split
    · exact forall₂_refl_of db (fun a => rfl)
    · split
      · exact forall₂_refl_of db (fun a => rfl)
      · rename_i user hfind
        split
        · exact forall₂_refl_of db (fun a => rfl)
        · split
          · exact forall₂_save hids (findOne_mem hfind) rfl rfl (fun a => rfl)
          · split
            · split
              · exact forall₂_save hids (findOne_mem hfind) rfl rfl (fun a => rfl)
              · exact forall₂_refl_of db (fun a => rfl)
            · exact forall₂_refl_of db (fun a => rfl)
  · simp only [resetPassword]
    split
    · exact forall₂_refl_of db (fun a => Or.inl rfl)
    · rename_i user hfind
      split
      · exact forall₂_refl_of db (fun a => Or.inl rfl)
      · split
        · exact forall₂_refl_of db (fun a => Or.inl rfl)
        · split
          · rename_i pw hpw
            exact forall₂_save hids (findOne_mem hfind) rfl (Or.inr ⟨pw, hpw, rfl⟩)
              (fun a => Or.inl rfl)
          · exact forall₂_refl_of db (fun a => Or.inl rfl)
  · intro u hfind hout
    simp only [verifyOtp, hfind] at hout ⊢
    split at hout
    · exact absurd hout (by simp [reply])
    · split at hout
      · exact absurd hout (by simp [reply])
      · rename_i h1 h2
        simp only [h1, h2, if_false]
        exact byMobile_save hfind rfl rfl
  · intro u hfind hout
    simp only [resetPassword, hfind] at hout ⊢
    split at hout
    · exact absurd hout (by simp [reply])
    · split at hout
      · exact absurd hout (by simp [reply])
      · rename_i h1 h2
        simp only [h1, h2, if_false]
        split at hout
        · rename_i pw hpw
          refine ⟨pw, hpw, ?_⟩
          simp only [Bool.false_eq_true, if_false]
          exact byEmail_save hfind rfl rfl
        · exact absurd hout (by simp [reply])

/-- Witness for C8 on the sample collection. -/
theorem handlers_change_only_listed_fields_witness :
    List.Forall₂ (fun a b => b = { a with pin := b.pin }) sampleDb
      (setPin sampleDb (pinReq 1 (.str "1234"))).1 :=
  (handlers_change_only_listed_fields sampleEnv sampleDb (pinReq 1 (.str "1234")) 0 0 none
    "s" (by decide)).2.2.2.1

end OtpAuth
